import Mathlib

/-!
# Eveflow backend — verification of the spec's claims

Shallow embedding of the Eveflow event/vendor-management backend
(`Backend/admin_routes.py`, `Backend/auth_routes.py`, `Backend/models.py`).
The relational store is modelled as lists of records keyed by primary id;
`Model.query.get` is `List.find?` on the id, mutating a fetched row is
`replaceFirst` on the id, and `db.session.commit` / request-teardown rollback
is modelled by returning either the updated store (commit) or the original
store (any error response).  Timestamps (`datetime.utcnow()`) are passed in
explicitly as a `now : Nat` parameter; external library functions
(`datetime.fromisoformat`, `check_password_hash`, `create_access_token`)
are parameters of the operations that call them.
-/

/-! ## Python string primitives (`str.strip`, `str.upper`, `str.split(',')`, `','.join`)

Modelled at the `List Char` level, faithful to CPython semantics on ASCII
input (currency codes).  `upperChars` uses `Char.toUpper`, which agrees with
`str.upper` on basic latin letters. -/

/-- `str.upper()` on a list of characters. -/
def upperChars (l : List Char) : List Char := l.map Char.toUpper

/-- `str.strip()`: drop leading and trailing whitespace. -/
def trimChars (l : List Char) : List Char :=
  ((l.dropWhile Char.isWhitespace).reverse.dropWhile Char.isWhitespace).reverse

/-- `s.split(',')` — splits at every comma, never collapsing: `''.split(',') == ['']`. -/
def splitComma : List Char → List (List Char)
  | [] => [[]]
  | c :: rest =>
    if c = ',' then [] :: splitComma rest
    else
      match splitComma rest with
      | t :: ts => (c :: t) :: ts
      | [] => [[c]]

/-- `','.join(tokens)`. -/
def joinComma : List (List Char) → List Char
  | [] => []
  | [t] => t
  | t :: rest => t ++ ',' :: joinComma rest

/-! ## `normalize_currency_options` (admin_routes.py lines 36-50) -/

/-- The dynamically typed `raw_options` argument: at the call sites it is a
JSON value that is absent/null, a string, or a list of strings. -/
inductive RawOptions where
  | null : RawOptions
  | str (s : String) : RawOptions
  | list (l : List String) : RawOptions
deriving DecidableEq

/-- Python truthiness test `not raw_options`. -/
def RawOptions.falsy : RawOptions → Bool
  | .null => true
  | .str s => s = ""
  | .list l => l = []

/-- The `values` the function iterates over (`raw_options` if it is a list,
else `str(raw_options).split(',')`). -/
def RawOptions.values : RawOptions → List (List Char)
  | .null => []
  | .str s => splitComma s.data
  | .list l => l.map String.data

/-- One loop body step: `code = str(value).strip().upper()`, then the
`{EURO, EUROS} -> EUR` alias mapping. -/
def cleanCode (v : List Char) : List Char :=
  if upperChars (trimChars v) = "EURO".data ∨ upperChars (trimChars v) = "EUROS".data
  then "EUR".data else upperChars (trimChars v)

/-- The `for value in values` loop: drop empty codes, deduplicate preserving
first-seen order. -/
def cleanAux (acc : List (List Char)) : List (List Char) → List (List Char)
  | [] => acc
  | v :: vs =>
    let code := cleanCode v
    if code ≠ [] ∧ ¬ acc.contains code then cleanAux (acc ++ [code]) vs
    else cleanAux acc vs

/-- `normalize_currency_options(raw_options, default_currency='USD')`. -/
def normalize_currency_options (raw : RawOptions) (default_currency : String) : String :=
  if raw.falsy then ⟨upperChars default_currency.data⟩
  else
    match cleanAux [] raw.values with
    | [] => ⟨upperChars default_currency.data⟩
    | cleaned => ⟨joinComma cleaned⟩

/-! ## Data model (models.py) -/

/-- `User` row (vendors and admins). `password_hash` is the opaque stored hash. -/
structure User where
  id : Nat
  email : String
  password_hash : String
  full_name : String
  role : String
  phone : Option String
  company_name : Option String
  business_type : Option String
  created_at : Nat
  updated_at : Nat
  is_active : Bool
deriving DecidableEq

/-- `Event` row. `vendor_fee` is only ever copied and compared, so the
`Float` column is modelled as `Int`. -/
structure Event where
  id : Nat
  name : String
  description : Option String
  event_date : Int
  location : Option String
  venue : Option String
  expected_attendees : Option Int
  vendor_fee : Int
  status : String
  created_by_admin_id : Nat
  default_currency : String
  currency_options : String
  mpesa_number : Option String
  paypal_account : Option String
  zelle_account : Option String
  card_instructions : Option String
  created_at : Nat
  updated_at : Nat
deriving DecidableEq

/-- `VendorApplication` row. -/
structure VendorApplication where
  id : Nat
  vendor_id : Nat
  event_id : Nat
  product_service : String
  booth_requirements : Option String
  additional_notes : Option String
  status : String
  admin_notes : Option String
  reviewed_at : Option Nat
  reviewed_by : Option Nat
  applied_at : Nat
  updated_at : Nat
deriving DecidableEq

/-- `Payment` row. -/
structure Payment where
  id : Nat
  application_id : Nat
  vendor_id : Nat
  amount : Int
  payment_method : Option String
  transaction_id : Option String
  status : String
  currency : String
  pay_to : Option String
  payment_date : Option Nat
  created_at : Nat
  updated_at : Nat
  notes : Option String
deriving DecidableEq

/-- The relational store: one list per table. -/
structure DB where
  users : List User
  events : List Event
  applications : List VendorApplication
  payments : List Payment
deriving DecidableEq

/-- `User.query.get(uid)`. -/
def findUser (db : DB) (uid : Nat) : Option User := db.users.find? (fun u => u.id == uid)

/-- `Event.query.get(eid)`. -/
def findEvent (db : DB) (eid : Nat) : Option Event := db.events.find? (fun e => e.id == eid)

/-- `VendorApplication.query.get(aid)`. -/
def findApplication (db : DB) (aid : Nat) : Option VendorApplication :=
  db.applications.find? (fun a => a.id == aid)

/-- `Payment.query.get(pid)`. -/
def findPayment (db : DB) (pid : Nat) : Option Payment :=
  db.payments.find? (fun p => p.id == pid)

/-- `User.query.filter_by(email=email).first()`. -/
def findUserByEmail (db : DB) (email : String) : Option User :=
  db.users.find? (fun u => u.email == email)

/-- Replace the first element satisfying `p` (mutation of the single row a
`query.get` returned; primary keys are unique). -/
def replaceFirst (p : α → Bool) (y : α) : List α → List α
  | [] => []
  | x :: xs => if p x then y :: xs else x :: replaceFirst p y xs

/-- Commit a mutated `User` row. -/
def DB.setUser (db : DB) (u : User) : DB :=
  { db with users := replaceFirst (fun x => x.id == u.id) u db.users }

/-- Commit a mutated `Event` row. -/
def DB.setEvent (db : DB) (e : Event) : DB :=
  { db with events := replaceFirst (fun x => x.id == e.id) e db.events }

/-- Commit a mutated `VendorApplication` row. -/
def DB.setApplication (db : DB) (a : VendorApplication) : DB :=
  { db with applications := replaceFirst (fun x => x.id == a.id) a db.applications }

/-- Commit a mutated `Payment` row. -/
def DB.setPayment (db : DB) (p : Payment) : DB :=
  { db with payments := replaceFirst (fun x => x.id == p.id) p db.payments }

/-- `db.session.add(event)`: insert with a fresh autoincrement id. -/
def DB.addEvent (db : DB) (e : Event) : DB := { db with events := db.events ++ [e] }

/-- `db.session.add(payment)`: insert with a fresh autoincrement id. -/
def DB.addPayment (db : DB) (p : Payment) : DB := { db with payments := db.payments ++ [p] }

/-- Next autoincrement primary key for `events`. -/
def freshEventId (db : DB) : Nat := (db.events.map Event.id).foldr max 0 + 1

/-- Next autoincrement primary key for `payments`. -/
def freshPaymentId (db : DB) : Nat := (db.payments.map Payment.id).foldr max 0 + 1

/-! ## Identity helpers (admin_routes.py lines 10-33)

The JWT identity already decoded by `_current_user_id` is modelled as
`cur : Option Nat` (`None` covers a missing/non-integer identity). -/

/-- `check_admin()`. -/
def checkAdmin (db : DB) (cur : Option Nat) : Bool :=
  match cur with
  | none => false
  | some uid =>
    match findUser db uid with
    | none => false
    | some u => u.role == "admin"

/-- `get_current_admin_id()`. -/
def getCurrentAdminId (db : DB) (cur : Option Nat) : Option Nat :=
  match cur with
  | none => none
  | some uid =>
    match findUser db uid with
    | none => none
    | some u => if u.role == "admin" then some u.id else none

/-! ## Vendor management (admin_routes.py lines 53-118) -/

/-- Body of the `GET /admin/vendors/<id>` 200 response. -/
structure VendorDetails where
  vendor : User
  applications : List VendorApplication
  payments : List Payment
deriving DecidableEq

/-- `get_vendor_details(vendor_id)`: admin gate, 404 unless the user exists
with role `vendor`, then returns *all* of the vendor's applications and
payments (`filter_by(vendor_id=vendor_id)`, no ownership join). -/
def getVendorDetails (db : DB) (cur : Option Nat) (vendor_id : Nat) :
    Nat × Option VendorDetails :=
  if checkAdmin db cur = false then (403, none)
  else
    match findUser db vendor_id with
    | none => (404, none)
    | some v =>
      if v.role ≠ "vendor" then (404, none)
      else
        (200, some ⟨v, db.applications.filter (fun a => a.vendor_id == vendor_id),
                    db.payments.filter (fun p => p.vendor_id == vendor_id)⟩)

/-- `toggle_vendor_status(vendor_id)`: flips `is_active` of any user with
role `vendor`; no ownership relation to the acting admin is checked. -/
def toggleVendorStatus (db : DB) (cur : Option Nat) (vendor_id : Nat) (now : Nat) :
    Nat × DB :=
  if checkAdmin db cur = false then (403, db)
  else
    match findUser db vendor_id with
    | none => (404, db)
    | some v =>
      if v.role ≠ "vendor" then (404, db)
      else (200, db.setUser { v with is_active := !v.is_active, updated_at := now })

/-- The admin the ownership chain of an application resolves to. -/
def applicationOwner (db : DB) (a : VendorApplication) : Option Nat :=
  (findEvent db a.event_id).map Event.created_by_admin_id

/-- The admin the ownership chain Payment → Application → Event resolves to. -/
def paymentOwner (db : DB) (p : Payment) : Option Nat :=
  (findApplication db p.application_id).bind (fun a => applicationOwner db a)

/-! ## Application listing (admin_routes.py lines 121-151)

The query is `VendorApplication.query.join(Event).filter(Event.created_by_admin_id
== current_admin_id)`.  After `.join(Event)`, SQLAlchemy's `Query.filter_by`
resolves keyword attributes against the **last joined entity**, i.e. `Event`:
`filter_by(status=status)` therefore filters on the *event's* status column,
and `filter_by(event_id=event_id)` raises (Event has no `event_id` attribute),
which the surrounding `except` turns into a 500 response. -/

/-- `ORDER BY VendorApplication.applied_at DESC` (stable insertion sort, so a
concrete result is kernel-computable). -/
def insertByDesc (x : VendorApplication) : List VendorApplication → List VendorApplication
  | [] => [x]
  | y :: ys =>
    if Nat.ble y.applied_at x.applied_at then x :: y :: ys else y :: insertByDesc x ys

/-- Sort applications by `applied_at` descending. -/
def sortByAppliedDesc : List VendorApplication → List VendorApplication
  | [] => []
  | x :: xs => insertByDesc x (sortByAppliedDesc xs)

/-- `get_all_applications()` with query parameters `status` (absent → `None`)
and `event_id` (absent or non-integer → `None`; `type=int` may yield `0`).
Python truthiness: an empty-string status and a zero event_id are skipped. -/
def getAllApplications (db : DB) (cur : Option Nat)
    (statusF : Option String) (eventIdF : Option Int) :
    Nat × List VendorApplication :=
  if checkAdmin db cur = false then (403, [])
  else
    match getCurrentAdminId db cur with
    | none => (403, [])
    | some admin_id =>
      let q0 := db.applications.filter (fun a =>
        match findEvent db a.event_id with
        | some e => e.created_by_admin_id == admin_id
        | none => false)
      let q1 := match statusF with
        | some s =>
          if s ≠ "" then
            -- filter_by(status=...) after join(Event) targets Event.status
            q0.filter (fun a =>
              match findEvent db a.event_id with
              | some e => e.status == s
              | none => false)
          else q0
        | none => q0
      match eventIdF with
      | some v =>
        if v ≠ 0 then
          -- filter_by(event_id=...) after join(Event): Event has no
          -- `event_id` property, InvalidRequestError → except → 500
          (500, [])
        else (200, sortByAppliedDesc q1)
      | none => (200, sortByAppliedDesc q1)

/-! ## Application review (admin_routes.py lines 153-205) -/

/-- JSON body of `PUT /admin/applications/<id>/review`. -/
structure ReviewBody where
  status : Option String
  admin_notes : Option String
deriving DecidableEq

/-- Result of a mutating route: HTTP code, the entity echoed in the 200
response body, and the store after commit (or unchanged on error). -/
structure RevResult where
  code : Nat
  application : Option VendorApplication
  db : DB
deriving DecidableEq

/-- The `Payment` created on approval (models.py defaults: `status` passed as
`'pending'`, `currency='USD'`, `payment_date` NULL, timestamps `utcnow`). -/
def newPayment (db : DB) (app : VendorApplication) (ev : Event) (now : Nat) : Payment :=
  { id := freshPaymentId db
    application_id := app.id
    vendor_id := app.vendor_id
    amount := ev.vendor_fee
    payment_method := none
    transaction_id := none
    status := "pending"
    currency := "USD"
    pay_to := none
    payment_date := none
    created_at := now
    updated_at := now
    notes := none }

/-- `review_application(application_id)`. -/
def reviewApplication (db : DB) (cur : Option Nat) (application_id : Nat)
    (body : ReviewBody) (now : Nat) : RevResult :=
  if checkAdmin db cur = false then ⟨403, none, db⟩
  else
    match cur with
    | none => ⟨401, none, db⟩
    | some uid =>
      match findApplication db application_id with
      | none => ⟨404, none, db⟩
      | some app =>
        match findEvent db app.event_id with
        | none => ⟨403, none, db⟩
        | some ev =>
          if ev.created_by_admin_id ≠ uid then ⟨403, none, db⟩
          else
            match body.status with
            | none => ⟨400, none, db⟩
            | some st =>
              if ¬ (st = "approved" ∨ st = "rejected") then ⟨400, none, db⟩
              else
                let app' : VendorApplication :=
                  { app with
                    status := st
                    admin_notes := body.admin_notes
                    reviewed_at := some now
                    reviewed_by := some uid
                    updated_at := now }
                let db1 := db.setApplication app'
                let db2 :=
                  if st = "approved" then
                    match db1.payments.find? (fun p => p.application_id == app.id) with
                    | some _ => db1
                    | none => db1.addPayment (newPayment db1 app ev now)
                  else db1
                ⟨200, some app', db2⟩

/-- All payments referencing an application id. -/
def paymentsFor (db : DB) (aid : Nat) : List Payment :=
  db.payments.filter (fun p => p.application_id == aid)

/-- Iterate `n` identical approval calls (retried requests). -/
def approveIter (cur aid : Nat) (notes : Option String) (now : Nat) : Nat → DB → DB
  | 0, db => db
  | n + 1, db =>
    approveIter cur aid notes now n
      (reviewApplication db (some cur) aid ⟨some "approved", notes⟩ now).db

/-! ## Event management (admin_routes.py lines 240-373)

`datetime.fromisoformat(s.replace('Z', '+00:00'))` is an external library
call; it is passed in as `parseIso : String → Option Int` (`none` = the
`ValueError` branch). -/

/-- JSON body of `POST /admin/events` (`data.get(...)`: absent → `none`). -/
structure CreateEventBody where
  name : Option String
  description : Option String
  event_date : Option String
  location : Option String
  venue : Option String
  expected_attendees : Option Int
  vendor_fee : Option Int
  status : Option String
  default_currency : Option String
  currency_options : RawOptions
  mpesa_number : Option String
  paypal_account : Option String
  zelle_account : Option String
  card_instructions : Option String
deriving DecidableEq

/-- Partial-update body of `PUT /admin/events/<id>`: `some v` = the key is
present in the JSON with value `v`. -/
structure EventPatch where
  name : Option String
  description : Option String
  event_date : Option String
  location : Option String
  venue : Option String
  expected_attendees : Option Int
  vendor_fee : Option Int
  status : Option String
  default_currency : Option String
  currency_options : Option RawOptions
  mpesa_number : Option String
  paypal_account : Option String
  zelle_account : Option String
  card_instructions : Option String
deriving DecidableEq

/-- Result of an event route: HTTP code, the event echoed in the success
body, and the store after commit (or unchanged on error). -/
structure EvResult where
  code : Nat
  event : Option Event
  db : DB
deriving DecidableEq

/-- `str(x).upper()`. -/
def sUpper (s : String) : String := ⟨upperChars s.data⟩

/-- The `allowed_currencies` list-comprehension:
`[c.strip() for c in options.split(',') if c.strip()]`. -/
def allowedCurrencies (options : String) : List (List Char) :=
  ((splitComma options.data).map trimChars).filter (fun c => c ≠ [])

/-- `create_event()`. -/
def createEvent (db : DB) (cur : Option Nat) (b : CreateEventBody)
    (parseIso : String → Option Int) (now : Nat) : EvResult :=
  if checkAdmin db cur = false then ⟨403, none, db⟩
  else
    match getCurrentAdminId db cur with
    | none => ⟨403, none, db⟩
    | some admin_id =>
      match b.name with
      | none => ⟨400, none, db⟩
      | some nm =>
        match b.event_date with
        | none => ⟨400, none, db⟩
        | some ds =>
          match parseIso ds with
          | none => ⟨400, none, db⟩
          | some dt =>
            let ev : Event :=
              { id := freshEventId db
                name := nm
                description := b.description
                event_date := dt
                location := b.location
                venue := b.venue
                expected_attendees := b.expected_attendees
                vendor_fee := b.vendor_fee.getD 0
                status := b.status.getD "upcoming"
                created_by_admin_id := admin_id
                default_currency := sUpper (b.default_currency.getD "USD")
                currency_options :=
                  normalize_currency_options b.currency_options (b.default_currency.getD "USD")
                mpesa_number := b.mpesa_number
                paypal_account := b.paypal_account
                zelle_account := b.zelle_account
                card_instructions := b.card_instructions
                created_at := now
                updated_at := now }
            if ¬ (allowedCurrencies ev.currency_options).contains ev.default_currency.data then
              ⟨400, none, db⟩
            else ⟨201, some ev, db.addEvent ev⟩

/-- The merged row after `update_event`'s field-by-field patching.  The
`currency_options` branch normalizes with
`data.get('default_currency', event.default_currency)` — the *raw* body value
when the key is present, the stored value otherwise. -/
def patchFields (e : Event) (p : EventPatch) : Event :=
  { e with
    name := p.name.getD e.name
    description := p.description.or e.description
    location := p.location.or e.location
    venue := p.venue.or e.venue
    expected_attendees := p.expected_attendees.elim e.expected_attendees some
    vendor_fee := p.vendor_fee.getD e.vendor_fee
    status := p.status.getD e.status
    default_currency := p.default_currency.elim e.default_currency sUpper
    currency_options :=
      p.currency_options.elim e.currency_options
        (fun raw => normalize_currency_options raw (p.default_currency.getD e.default_currency))
    mpesa_number := p.mpesa_number.or e.mpesa_number
    paypal_account := p.paypal_account.or e.paypal_account
    zelle_account := p.zelle_account.or e.zelle_account
    card_instructions := p.card_instructions.or e.card_instructions }

/-- Apply the patch, short-circuiting with 400 on a malformed `event_date`
(partial in-session mutations before the error are discarded at request
teardown, so only the fully merged row is observable). -/
def applyEventPatch (e : Event) (p : EventPatch) (parseIso : String → Option Int) :
    Except Nat Event :=
  match p.event_date with
  | some ds =>
    match parseIso ds with
    | none => .error 400
    | some dt => .ok (patchFields { e with event_date := dt } p)
  | none => .ok (patchFields e p)

/-- `update_event(event_id)`. -/
def updateEvent (db : DB) (cur : Option Nat) (event_id : Nat) (p : EventPatch)
    (parseIso : String → Option Int) (now : Nat) : EvResult :=
  if checkAdmin db cur = false then ⟨403, none, db⟩
  else
    match findEvent db event_id with
    | none => ⟨404, none, db⟩
    | some e =>
      match getCurrentAdminId db cur with
      | none => ⟨403, none, db⟩
      | some admin_id =>
        if e.created_by_admin_id ≠ admin_id then ⟨403, none, db⟩
        else
          match applyEventPatch e p parseIso with
          | .error c => ⟨c, none, db⟩
          | .ok e1 =>
            if allowedCurrencies e1.currency_options = [] then ⟨400, none, db⟩
            else if ¬ (allowedCurrencies e1.currency_options).contains
                      (upperChars e1.default_currency.data) then ⟨400, none, db⟩
            else
              let e2 := { e1 with updated_at := now }
              ⟨200, some e2, db.setEvent e2⟩

/-! ## Payment management (admin_routes.py lines 427-473) -/

/-- JSON body of `PUT /admin/payments/<id>/update-status`. -/
structure PaymentBody where
  status : Option String
  payment_method : Option String
  transaction_id : Option String
  notes : Option String
deriving DecidableEq

/-- Result of the payment route. -/
structure PayResult where
  code : Nat
  payment : Option Payment
  db : DB
deriving DecidableEq

/-- `update_payment_status(payment_id)`: ownership chain
Payment → Application → Event → acting admin is verified, then only
`status`, `payment_date`, `payment_method`, `transaction_id`, `notes` and
`updated_at` are written.  `payment_date` is written only when the new
status is `completed` and no date is set yet. -/
def updatePaymentStatus (db : DB) (cur : Option Nat) (payment_id : Nat)
    (b : PaymentBody) (now : Nat) : PayResult :=
  if checkAdmin db cur = false then ⟨403, none, db⟩
  else
    match findPayment db payment_id with
    | none => ⟨404, none, db⟩
    | some pay =>
      match getCurrentAdminId db cur with
      | none => ⟨403, none, db⟩
      | some admin_id =>
        match findApplication db pay.application_id with
        | none => ⟨403, none, db⟩
        | some app =>
          match findEvent db app.event_id with
          | none => ⟨403, none, db⟩
          | some ev =>
            if ev.created_by_admin_id ≠ admin_id then ⟨403, none, db⟩
            else
              match b.status with
              | none => ⟨400, none, db⟩
              | some st =>
                if ¬ (st = "pending" ∨ st = "completed" ∨ st = "failed" ∨ st = "refunded")
                then ⟨400, none, db⟩
                else
                  let pay1 : Payment :=
                    { pay with
                      status := st
                      payment_date :=
                        if st = "completed" ∧ pay.payment_date = none
                        then some now else pay.payment_date
                      payment_method := b.payment_method.or pay.payment_method
                      transaction_id := b.transaction_id.or pay.transaction_id
                      notes := b.notes.or pay.notes
                      updated_at := now }
                  ⟨200, some pay1, db.setPayment pay1⟩

/-! ## Login (auth_routes.py lines 66-107)

`check_password_hash` and `create_access_token` are external primitives;
they are passed in as `chk : String → String → Bool` (stored hash, candidate
password) and `mkTok : String → String` (identity → signed credential).
A missing `email`/`password`/`role` JSON field and an empty string are both
falsy in Python, so they are modelled as `""` / `none` respectively. -/

/-- Login response: HTTP code and the `access_token` on success. -/
structure LoginResult where
  code : Nat
  token : Option String
deriving DecidableEq

/-- `login()`. -/
def login (db : DB) (email password : String) (role : Option String)
    (chk : String → String → Bool) (mkTok : String → String) : LoginResult :=
  if email = "" ∨ password = "" then ⟨400, none⟩
  else
    match findUserByEmail db email with
    | none => ⟨401, none⟩
    | some u =>
      if chk u.password_hash password = false then ⟨401, none⟩
      else if u.is_active = false then ⟨403, none⟩
      else
        match role with
        | some r =>
          if r ≠ "" ∧ u.role ≠ r then ⟨401, none⟩
          else ⟨200, some (mkTok (toString u.id))⟩
        | none => ⟨200, some (mkTok (toString u.id))⟩

/-! ## Derived notions used by the claims -/

/-- The "parsed `currency_options` set" of an event: split on commas, trim,
drop empties (the same parse both routes validate against). -/
def parsedCurrencyOptions (e : Event) : List (List Char) :=
  allowedCurrencies e.currency_options

/-- The currency invariant of claim C5, as a decidable check. -/
def eventCurrencyOk (e : Event) : Bool :=
  (parsedCurrencyOptions e).contains e.default_currency.data

/-- The frame of a `Payment` that `update_payment_status` must not touch:
everything except `status`, `payment_date`, `payment_method`,
`transaction_id`, `notes`, `updated_at`. -/
def paymentFrame (p : Payment) : Nat × Nat × Nat × Int × String × Option String × Nat :=
  (p.id, p.application_id, p.vendor_id, p.amount, p.currency, p.pay_to, p.created_at)

/-! ## Concrete fixtures for counterexamples and witnesses -/

/-- A minimal user row. -/
def fixUser (i : Nat) (role : String) (active : Bool) : User :=
  { id := i, email := toString i ++ "@x", password_hash := "h" ++ toString i,
    full_name := "u", role := role, phone := none, company_name := none,
    business_type := none, created_at := 0, updated_at := 0, is_active := active }

/-- A minimal event row. -/
def fixEvent (i owner : Nat) (fee : Int) (st dc opts : String) : Event :=
  { id := i, name := "E", description := none, event_date := 100, location := none,
    venue := none, expected_attendees := none, vendor_fee := fee, status := st,
    created_by_admin_id := owner, default_currency := dc, currency_options := opts,
    mpesa_number := none, paypal_account := none, zelle_account := none,
    card_instructions := none, created_at := 0, updated_at := 0 }

/-- A minimal application row. -/
def fixApp (i vid eid : Nat) (st : String) : VendorApplication :=
  { id := i, vendor_id := vid, event_id := eid, product_service := "food",
    booth_requirements := none, additional_notes := none, status := st,
    admin_notes := none, reviewed_at := none, reviewed_by := none,
    applied_at := 3, updated_at := 3 }

/-- A minimal payment row. -/
def fixPay (i aid vid : Nat) (amt : Int) (st : String) (pd : Option Nat) : Payment :=
  { id := i, application_id := aid, vendor_id := vid, amount := amt,
    payment_method := none, transaction_id := none, status := st, currency := "USD",
    pay_to := none, payment_date := pd, created_at := 0, updated_at := 0, notes := none }

/-- An empty `PUT /admin/events/<id>` body (no keys present). -/
def emptyEventPatch : EventPatch :=
  { name := none, description := none, event_date := none, location := none,
    venue := none, expected_attendees := none, vendor_fee := none, status := none,
    default_currency := none, currency_options := none, mpesa_number := none,
    paypal_account := none, zelle_account := none, card_instructions := none }

/-- C1 store: admins 1 and 2, vendor 3; event 20 is owned by admin **2**;
application 10 and payment 30 belong to vendor 3 under that event.  Admin
**1** requests `GET /admin/vendors/3`. -/
def dbC1 : DB :=
  { users := [fixUser 1 "admin" true, fixUser 2 "admin" true, fixUser 3 "vendor" true],
    events := [fixEvent 20 2 500 "upcoming" "USD" "USD"],
    applications := [fixApp 10 3 20 "approved"],
    payments := [fixPay 30 10 3 500 "pending" none] }

/-- C4 store: admin 1 owns event 20 (status `upcoming`) with the pending
application 10. -/
def dbC4 : DB :=
  { users := [fixUser 1 "admin" true],
    events := [fixEvent 20 1 500 "upcoming" "USD" "USD"],
    applications := [fixApp 10 3 20 "pending"],
    payments := [] }

/-- C3 store: admin 1 owns event 20; application 10 was already reviewed
(approved at time 5 by admin 1); payment 30 exists for it. -/
def dbC3 : DB :=
  { users := [fixUser 1 "admin" true],
    events := [fixEvent 20 1 500 "upcoming" "USD" "USD"],
    applications :=
      [{ fixApp 10 3 20 "approved" with reviewed_at := some 5, reviewed_by := some 1 }],
    payments := [fixPay 30 10 3 500 "pending" none] }

/-- Claim C3 as stated: a review call on an application whose status is
`approved`, `rejected` or `withdrawn` leaves its `status`, `reviewed_at` and
`reviewed_by` unchanged. -/
def C3Statement : Prop :=
  ∀ (db : DB) (cur : Option Nat) (aid : Nat) (b : ReviewBody) (now : Nat)
    (app app' : VendorApplication),
    findApplication db aid = some app →
    (app.status = "approved" ∨ app.status = "rejected" ∨ app.status = "withdrawn") →
    findApplication (reviewApplication db cur aid b now).db aid = some app' →
    app'.status = app.status ∧ app'.reviewed_at = app.reviewed_at ∧
      app'.reviewed_by = app.reviewed_by

/-- C2 witness store: admin 1 owns event 20 (fee 500); application 10 is
pending; no payment exists yet. -/
def dbC2w : DB :=
  { users := [fixUser 1 "admin" true],
    events := [fixEvent 20 1 500 "upcoming" "USD" "USD"],
    applications := [fixApp 10 3 20 "pending"],
    payments := [] }

/-- C5 witness store: admin 1 owns event 20 with `USD` currency data. -/
def dbC5w : DB :=
  { users := [fixUser 1 "admin" true],
    events := [fixEvent 20 1 500 "upcoming" "USD" "USD"],
    applications := [],
    payments := [] }

/-- C5 witness body: currencies `["Euros", " usd "]` with default `eur`
(the normalization scenario of spec §8). -/
def bodyC5w : CreateEventBody :=
  { name := some "Expo", description := none, event_date := some "2025-01-01",
    location := none, venue := none, expected_attendees := none,
    vendor_fee := some 500, status := none, default_currency := some "eur",
    currency_options := .list ["Euros", " usd "], mpesa_number := none,
    paypal_account := none, zelle_account := none, card_instructions := none }

/-- C6 witness store: payment 30 (no `payment_date` yet) under application 10
of event 20, owned by admin 1. -/
def dbC6w : DB :=
  { users := [fixUser 1 "admin" true],
    events := [fixEvent 20 1 500 "upcoming" "USD" "USD"],
    applications := [fixApp 10 3 20 "approved"],
    payments := [fixPay 30 10 3 500 "pending" none] }

/-- C9 store: one deactivated vendor whose credentials are correct. -/
def dbC9 : DB :=
  { users := [{ fixUser 5 "vendor" false with email := "v@x", password_hash := "pw" }],
    events := [], applications := [], payments := [] }

/-- The deactivated-account clause of claim C9 as stated: authenticate fails
with Unauthorized (HTTP 401) when the account is deactivated. -/
def C9DeactivatedClaim : Prop :=
  ∀ (db : DB) (email password : String) (role : Option String)
    (chk : String → String → Bool) (mkTok : String → String) (u : User),
    email ≠ "" → password ≠ "" →
    findUserByEmail db email = some u →
    chk u.password_hash password = true →
    u.is_active = false →
    (login db email password role chk mkTok).code = 401

/-- C10 witness store: admin 1 and vendor 3, with **no** application or
payment linking the vendor to any event of admin 1. -/
def dbC10w : DB :=
  { users := [fixUser 1 "admin" true, fixUser 3 "vendor" true],
    events := [], applications := [], payments := [] }

/-- Claim C8 as stated: for every input string and every `default_currency`
argument (of either call), re-normalizing an output of
`normalize_currency_options` returns it unchanged. -/
def C8Statement : Prop :=
  ∀ (s d d' : String),
    normalize_currency_options (.str (normalize_currency_options (.str s) d)) d' =
      normalize_currency_options (.str s) d

/-! ## Theorems -/

/-- C1 (code bug, evaluation at the failing input): admin 1 calls
`get_vendor_details(3)` and receives HTTP 200 with an application and a
payment whose ownership chains resolve to admin 2 — the route filters only by
`vendor_id` and never joins the ownership chain, so the tenant-isolation
claim is violated by this endpoint. -/
theorem c1_vendor_details_cross_tenant_leak :
    (getVendorDetails dbC1 (some 1) 3).1 = 200 ∧
    (getVendorDetails dbC1 (some 1) 3).2 =
      some ⟨fixUser 3 "vendor" true, [fixApp 10 3 20 "approved"],
            [fixPay 30 10 3 500 "pending" none]⟩ ∧
    applicationOwner dbC1 (fixApp 10 3 20 "approved") = some 2 ∧
    paymentOwner dbC1 (fixPay 30 10 3 500 "pending" none) = some 2 ∧
    (2 : Nat) ≠ 1 := by
  refine ⟨rfl, rfl, rfl, rfl, by decide⟩

/-- C4 (code bug, evaluation at the failing input): with no filters the
owned pending application is returned, but `?status=pending` returns an
*empty* list while `?status=upcoming` (the *event's* status) returns it —
`filter_by` after `join(Event)` targets `Event` — and `?event_id=20`
produces a 500 because `Event` has no `event_id` attribute.  The claim that
the filters select on the application's own `status`/`event_id` is violated. -/
theorem c4_filter_by_join_divergence :
    (getAllApplications dbC4 (some 1) none none).2 = [fixApp 10 3 20 "pending"] ∧
    (getAllApplications dbC4 (some 1) (some "pending") none).2 = [] ∧
    (getAllApplications dbC4 (some 1) (some "upcoming") none).2 =
      [fixApp 10 3 20 "pending"] ∧
    (getAllApplications dbC4 (some 1) none (some 20)).1 = 500 := by
  refine ⟨rfl, rfl, rfl, rfl⟩

/-! ### Character-level helper lemmas -/

/-- `Char.ofNat` of a valid scalar value round-trips through `toNat`. -/
theorem charToNat_ofNat {n : Nat} (h : n.isValidChar) : (Char.ofNat n).toNat = n := by
  rw [Char.ofNat, dif_pos h]
  rfl

/-- Case analysis on `Char.toUpper`: a basic-latin lowercase letter moves
down by 32, everything else is fixed. -/
theorem toUpper_spec (c : Char) :
    (97 ≤ c.toNat ∧ c.toNat ≤ 122 ∧ (Char.toUpper c).toNat = c.toNat - 32) ∨
    (¬ (97 ≤ c.toNat ∧ c.toNat ≤ 122) ∧ Char.toUpper c = c) := by
  by_cases h : 97 ≤ c.toNat ∧ c.toNat ≤ 122
  · left
    refine ⟨h.1, h.2, ?_⟩
    have hv : (c.toNat - 32).isValidChar := Or.inl (by omega)
    simp only [Char.toUpper]
    rw [if_pos ⟨h.1, h.2⟩]
    exact charToNat_ofNat hv
  · right
    refine ⟨h, ?_⟩
    simp only [Char.toUpper]
    rw [if_neg h]

/-- `toUpper` is idempotent. -/
theorem toUpper_idem (c : Char) : c.toUpper.toUpper = c.toUpper := by
  rcases toUpper_spec c with ⟨h1, h2, h3⟩ | ⟨_, he⟩
  · rcases toUpper_spec c.toUpper with ⟨g1, _, _⟩ | ⟨_, ge⟩
    · omega
    · exact ge
  · rw [he, he]

/-- A whitespace character has code 32, 9, 13 or 10. -/
theorem ws_imp_toNat {c : Char} (h : c.isWhitespace = true) :
    c.toNat = 32 ∨ c.toNat = 9 ∨ c.toNat = 13 ∨ c.toNat = 10 := by
  simp only [Char.isWhitespace, Bool.or_eq_true, decide_eq_true_eq] at h
  rcases h with ((h | h) | h) | h <;> subst h <;> decide

/-- `toUpper` preserves whitespace-ness. -/
theorem isWhitespace_toUpper (c : Char) : c.toUpper.isWhitespace = c.isWhitespace := by
  rcases toUpper_spec c with ⟨h1, h2, h3⟩ | ⟨_, he⟩
  · have l1 : c.isWhitespace = false := by
      cases hw : c.isWhitespace
      · rfl
      · exfalso; rcases ws_imp_toNat hw with t | t | t | t <;> omega
    have l2 : c.toUpper.isWhitespace = false := by
      cases hw : c.toUpper.isWhitespace
      · rfl
      · exfalso; rcases ws_imp_toNat hw with t | t | t | t <;> omega
    rw [l1, l2]
  · rw [he]

/-- `toUpper` cannot produce a comma from a non-comma. -/
theorem toUpper_eq_comma {c : Char} (h : c.toUpper = ',') : c = ',' := by
  rcases toUpper_spec c with ⟨h1, h2, h3⟩ | ⟨_, he⟩
  · exfalso
    rw [h] at h3
    have h44 : (',' : Char).toNat = 44 := by decide
    omega
  · rwa [he] at h

/-! ### List-level helper lemmas for the string primitives -/

/-- `dropWhile` is idempotent. -/
theorem dropWhile_idem (p : α → Bool) (l : List α) :
    (l.dropWhile p).dropWhile p = l.dropWhile p := by
  induction l with
  | nil => rfl
  | cons x xs ih =>
    by_cases h : p x
    · simp [List.dropWhile_cons, h, ih]
    · simp [List.dropWhile_cons, h]

/-- If a list is `dropWhile`-fixed, so is any prefix of it. -/
theorem dropWhile_eq_self_append {p : α → Bool} :
    ∀ {m t : List α}, (m ++ t).dropWhile p = m ++ t → m.dropWhile p = m := by
  intro m
  induction m with
  | nil => intro t _; rfl
  | cons x xs ih =>
    intro t h
    by_cases hx : p x
    · exfalso
      rw [List.cons_append, List.dropWhile_cons, if_pos hx] at h
      have hlen : ((xs ++ t).dropWhile p).length = (x :: (xs ++ t)).length :=
        congrArg List.length h
      have hle : ((xs ++ t).dropWhile p).length ≤ (xs ++ t).length :=
        (List.dropWhile_sublist p).length_le
      simp only [List.length_cons] at hlen
      omega
    · rw [List.dropWhile_cons, if_neg hx]

/-- `trimChars` is idempotent. -/
theorem trimChars_idem (l : List Char) : trimChars (trimChars l) = trimChars l := by
  have ha : (l.dropWhile Char.isWhitespace).dropWhile Char.isWhitespace
      = l.dropWhile Char.isWhitespace := dropWhile_idem _ _
  have hsplit : (l.dropWhile Char.isWhitespace).reverse.takeWhile Char.isWhitespace ++
      (l.dropWhile Char.isWhitespace).reverse.dropWhile Char.isWhitespace
      = (l.dropWhile Char.isWhitespace).reverse := List.takeWhile_append_dropWhile _ _
  have ha2 : l.dropWhile Char.isWhitespace =
      ((l.dropWhile Char.isWhitespace).reverse.dropWhile Char.isWhitespace).reverse ++
      ((l.dropWhile Char.isWhitespace).reverse.takeWhile Char.isWhitespace).reverse := by
    have hrev := congrArg List.reverse hsplit
    rw [List.reverse_append, List.reverse_reverse] at hrev
    exact hrev.symm
  have hb : (trimChars l).dropWhile Char.isWhitespace = trimChars l := by
    apply dropWhile_eq_self_append
      (t := ((l.dropWhile Char.isWhitespace).reverse.takeWhile Char.isWhitespace).reverse)
    rw [show trimChars l ++
        ((l.dropWhile Char.isWhitespace).reverse.takeWhile Char.isWhitespace).reverse
        = l.dropWhile Char.isWhitespace from ha2.symm]
    exact ha
  have hrev2 : (trimChars l).reverse =
      (l.dropWhile Char.isWhitespace).reverse.dropWhile Char.isWhitespace := by
    unfold trimChars
    rw [List.reverse_reverse]
  show (((trimChars l).dropWhile Char.isWhitespace).reverse.dropWhile
      Char.isWhitespace).reverse = trimChars l
  rw [hb, hrev2, dropWhile_idem]
  rfl

/-- `trimChars` commutes with `upperChars`. -/
theorem trim_upper_comm (l : List Char) :
    trimChars (upperChars l) = upperChars (trimChars l) := by
  have hws : (Char.isWhitespace ∘ Char.toUpper) = Char.isWhitespace := by
    funext c; exact isWhitespace_toUpper c
  unfold trimChars upperChars
  rw [List.dropWhile_map, hws, ← List.map_reverse, List.dropWhile_map, hws,
    ← List.map_reverse]

/-- `upperChars` is idempotent. -/
theorem upperChars_idem (l : List Char) : upperChars (upperChars l) = upperChars l := by
  unfold upperChars
  rw [List.map_map]
  exact List.map_congr_left (fun a _ => toUpper_idem a)

/-- Trimming only removes characters. -/
theorem mem_trimChars {x : Char} {l : List Char} (h : x ∈ trimChars l) : x ∈ l := by
  unfold trimChars at h
  rw [List.mem_reverse] at h
  have h2 := List.Sublist.mem h (List.dropWhile_sublist _)
  rw [List.mem_reverse] at h2
  exact List.Sublist.mem h2 (List.dropWhile_sublist _)

/-- Pieces produced by `splitComma` contain no comma. -/
theorem splitComma_no_comma :
    ∀ (l : List Char), ∀ t ∈ splitComma l, ',' ∉ t := by
  intro l
  induction l with
  | nil =>
    intro t ht
    simp only [splitComma, List.mem_singleton] at ht
    subst ht
    simp
  | cons c rest ih =>
    intro t ht
    by_cases hc : c = ','
    · subst hc
      have hsc : splitComma (',' :: rest) = [] :: splitComma rest := by
        simp [splitComma]
      rw [hsc] at ht
      rcases List.mem_cons.mp ht with h | h
      · subst h; simp
      · exact ih t h
    · simp only [splitComma, if_neg hc] at ht
      cases hsp : splitComma rest with
      | nil =>
        rw [hsp] at ht
        simp at ht
        subst ht
        intro hmem
        rcases List.mem_cons.mp hmem with h1 | h1
        · exact hc h1.symm
        · simp at h1
      | cons t0 ts =>
        rw [hsp] at ht
        rcases List.mem_cons.mp ht with h | h
        · subst h
          intro hmem
          rcases List.mem_cons.mp hmem with h1 | h1
          · exact hc h1.symm
          · exact ih t0 (hsp ▸ List.mem_cons_self t0 ts) h1
        · exact ih t (hsp ▸ List.mem_cons_of_mem t0 h)

/-- A comma-free list splits into itself. -/
theorem splitComma_of_no_comma :
    ∀ {l : List Char}, ',' ∉ l → splitComma l = [l] := by
  intro l
  induction l with
  | nil => intro _; rfl
  | cons c rest ih =>
    intro h
    have hc : c ≠ ',' := fun he => h (he ▸ List.mem_cons_self c rest)
    have hrest : ',' ∉ rest := fun hm => h (List.mem_cons_of_mem c hm)
    simp only [splitComma, if_neg (fun he => hc he)]
    rw [ih hrest]

/-- Splitting past a leading comma-free piece. -/
theorem splitComma_append :
    ∀ {t : List Char}, ',' ∉ t → ∀ (r : List Char),
      splitComma (t ++ ',' :: r) = t :: splitComma r := by
  intro t
  induction t with
  | nil =>
    intro _ r
    simp [splitComma]
  | cons c cs ih =>
    intro h r
    have hc : c ≠ ',' := fun he => h (he ▸ List.mem_cons_self c cs)
    have hcs : ',' ∉ cs := fun hm => h (List.mem_cons_of_mem c hm)
    simp only [List.cons_append, splitComma, if_neg (fun he => hc he), List.append_eq]
    rw [ih hcs r]

/-- `splitComma` inverts `joinComma` on non-empty lists of comma-free pieces. -/
theorem splitComma_joinComma :
    ∀ {l : List (List Char)}, l ≠ [] → (∀ t ∈ l, ',' ∉ t) →
      splitComma (joinComma l) = l := by
  intro l
  induction l with
  | nil => intro h _; exact absurd rfl h
  | cons t rest ih =>
    intro _ hall
    cases rest with
    | nil =>
      show splitComma t = [t]
      exact splitComma_of_no_comma (hall t (List.mem_cons_self t []))
    | cons t2 rest2 =>
      show splitComma (t ++ ',' :: joinComma (t2 :: rest2)) = t :: t2 :: rest2
      rw [splitComma_append (hall t (List.mem_cons_self _ _)) _]
      rw [ih (by simp) (fun u hu => hall u (List.mem_cons_of_mem t hu))]

/-- `joinComma` of a list whose head is non-empty is non-empty. -/
theorem joinComma_ne_nil {t : List Char} {rest : List (List Char)} (h : t ≠ []) :
    joinComma (t :: rest) ≠ [] := by
  cases rest with
  | nil => exact h
  | cons t2 r2 =>
    show t ++ ',' :: joinComma (t2 :: r2) ≠ []
    simp

/-! ### Lemmas about the normalization loop -/

/-- A cleaned code is a fixed point of cleaning. -/
theorem cleanCode_idem (v : List Char) : cleanCode (cleanCode v) = cleanCode v := by
  by_cases h : upperChars (trimChars v) = "EURO".data ∨ upperChars (trimChars v) = "EUROS".data
  · have h1 : cleanCode v = "EUR".data := by unfold cleanCode; rw [if_pos h]
    rw [h1]
    decide
  · have h1 : cleanCode v = upperChars (trimChars v) := by unfold cleanCode; rw [if_neg h]
    have hw : upperChars (trimChars (upperChars (trimChars v))) = upperChars (trimChars v) := by
      rw [trim_upper_comm, trimChars_idem, upperChars_idem]
    rw [h1]
    unfold cleanCode
    rw [hw, if_neg h]

/-- Cleaning cannot introduce a comma. -/
theorem cleanCode_no_comma {v : List Char} (h : ',' ∉ v) : ',' ∉ cleanCode v := by
  unfold cleanCode
  split
  · decide
  · intro hmem
    rcases List.mem_map.mp hmem with ⟨c, hc, hceq⟩
    have hcc : c = ',' := toUpper_eq_comma hceq
    subst hcc
    exact h (mem_trimChars hc)

/-- Every element of the loop's output is either from the accumulator or a
non-empty cleaned code of an input value. -/
theorem cleanAux_mem :
    ∀ (vs acc : List (List Char)) (w : List Char),
      w ∈ cleanAux acc vs → w ∈ acc ∨ ∃ v ∈ vs, w = cleanCode v ∧ w ≠ [] := by
  intro vs
  induction vs with
  | nil => intro acc w h; exact Or.inl h
  | cons v rest ih =>
    intro acc w h
    simp only [cleanAux] at h
    split at h
    case isTrue hg =>
      rcases ih _ w h with hacc | ⟨u, hu, he⟩
      · rcases List.mem_append.mp hacc with h1 | h1
        · exact Or.inl h1
        · have hw : w = cleanCode v := List.mem_singleton.mp h1
          exact Or.inr ⟨v, List.mem_cons_self _ _, hw, hw ▸ hg.1⟩
      · exact Or.inr ⟨u, List.mem_cons_of_mem _ hu, he⟩
    case isFalse =>
      rcases ih _ w h with hacc | ⟨u, hu, he⟩
      · exact Or.inl hacc
      · exact Or.inr ⟨u, List.mem_cons_of_mem _ hu, he⟩

/-- The loop's output has no duplicates (given a duplicate-free accumulator). -/
theorem cleanAux_nodup :
    ∀ (vs acc : List (List Char)), acc.Nodup → (cleanAux acc vs).Nodup := by
  intro vs
  induction vs with
  | nil => intro acc h; exact h
  | cons v rest ih =>
    intro acc hacc
    simp only [cleanAux]
    split
    case isTrue hg =>
      apply ih
      rw [List.nodup_append]
      refine ⟨hacc, List.nodup_singleton _, ?_⟩
      intro x hx hxs
      have hxc : x = cleanCode v := List.mem_singleton.mp hxs
      exact hg.2 (List.elem_iff.mpr (hxc ▸ hx))
    case isFalse => exact ih acc hacc

/-- On a list of non-empty fixed points that avoids the accumulator and has
no duplicates, the loop appends every element unchanged. -/
theorem cleanAux_fixed :
    ∀ (l acc : List (List Char)),
      (∀ w ∈ l, cleanCode w = w ∧ w ≠ []) → l.Nodup → (∀ w ∈ l, w ∉ acc) →
      cleanAux acc l = acc ++ l := by
  intro l
  induction l with
  | nil => intro acc _ _ _; simp [cleanAux]
  | cons t rest ih =>
    intro acc hfix hnd hdisj
    have h1 : cleanCode t = t := (hfix t (List.mem_cons_self _ _)).1
    have h2 : t ≠ [] := (hfix t (List.mem_cons_self _ _)).2
    have h3 : ¬ acc.contains t = true := by
      intro hc
      exact hdisj t (List.mem_cons_self _ _) (List.elem_iff.mp hc)
    simp only [cleanAux, h1]
    rw [if_pos ⟨h2, h3⟩]
    rw [ih (acc ++ [t]) (fun w hw => hfix w (List.mem_cons_of_mem _ hw))
      (List.nodup_cons.mp hnd).2
      (fun w hw hmem => by
        rcases List.mem_append.mp hmem with h4 | h4
        · exact hdisj w (List.mem_cons_of_mem _ hw) h4
        · exact (List.nodup_cons.mp hnd).1 (List.mem_singleton.mp h4 ▸ hw))]
    simp

/-! ### C8 — idempotence of currency normalization -/

/-- C8 (counterexample): normalization as universally stated is *not*
idempotent.  `normalize_currency_options('', '')` returns `''`, but
re-normalizing `''` with default `'USD'` returns `'USD'` — outputs produced
by the raw-default fallback are returned verbatim and may change when
normalized again. -/
theorem c8_normalize_not_idempotent : ¬ C8Statement := by
  intro h
  have := h "" "" "USD"
  revert this
  decide

/-- C8 (amended): normalization *is* idempotent whenever the input string is
non-empty and produces at least one cleaned token; only the raw-default
fallback outputs (empty or whitespace-only inputs, whose output is the
uppercased `default_currency` argument verbatim) can re-normalize
differently. -/
theorem c8_normalize_idempotent_on_nonempty
    (s d d' : String) (hs : s ≠ "") (hne : cleanAux [] (splitComma s.data) ≠ []) :
    normalize_currency_options (.str (normalize_currency_options (.str s) d)) d' =
      normalize_currency_options (.str s) d := by
  have hspec : ∀ w ∈ cleanAux [] (splitComma s.data),
      cleanCode w = w ∧ w ≠ [] ∧ ',' ∉ w := by
    intro w hw
    rcases cleanAux_mem _ _ w hw with habs | ⟨v, hv, he, hwne⟩
    · simp at habs
    · exact ⟨he ▸ cleanCode_idem v, hwne,
        he ▸ cleanCode_no_comma (splitComma_no_comma _ v hv)⟩
  have hnd : (cleanAux [] (splitComma s.data)).Nodup := cleanAux_nodup _ _ List.nodup_nil
  have hf : (RawOptions.str s).falsy = false := by
    simp only [RawOptions.falsy, decide_eq_false_iff_not]
    exact hs
  cases hcl : cleanAux [] (splitComma s.data) with
  | nil => exact absurd hcl hne
  | cons t rest =>
    have hspec' : ∀ w ∈ t :: rest, cleanCode w = w ∧ w ≠ [] ∧ ',' ∉ w := by
      intro w hw
      exact hspec w (hcl ▸ hw)
    have htne : t ≠ [] := (hspec' t (List.mem_cons_self _ _)).2.1
    have h1 : normalize_currency_options (.str s) d = ⟨joinComma (t :: rest)⟩ := by
      unfold normalize_currency_options
      rw [hf]
      simp only [Bool.false_eq_true, if_false]
      show (match cleanAux [] (splitComma s.data) with
        | [] => (⟨upperChars d.data⟩ : String)
        | cleaned => ⟨joinComma cleaned⟩) = ⟨joinComma (t :: rest)⟩
      rw [hcl]
    rw [h1]
    have hjoin_ne : joinComma (t :: rest) ≠ [] := joinComma_ne_nil htne
    have hf2 : (RawOptions.str (⟨joinComma (t :: rest)⟩ : String)).falsy = false := by
      simp only [RawOptions.falsy, decide_eq_false_iff_not]
      intro he
      exact hjoin_ne (congrArg String.data he)
    have hsplit2 : splitComma (joinComma (t :: rest)) = t :: rest :=
      splitComma_joinComma (by simp) (fun u hu => (hspec' u hu).2.2)
    have hclean2 : cleanAux [] (t :: rest) = t :: rest := by
      have := cleanAux_fixed (t :: rest) []
        (fun w hw => ⟨(hspec' w hw).1, (hspec' w hw).2.1⟩)
        (hcl ▸ hnd) (fun w _ hmem => by simp at hmem)
      simpa using this
    unfold normalize_currency_options
    rw [hf2]
    simp only [Bool.false_eq_true, if_false]
    show (match cleanAux [] (splitComma (String.data ⟨joinComma (t :: rest)⟩)) with
      | [] => (⟨upperChars d'.data⟩ : String)
      | cleaned => ⟨joinComma cleaned⟩) = ⟨joinComma (t :: rest)⟩
    show (match cleanAux [] (splitComma (joinComma (t :: rest))) with
      | [] => (⟨upperChars d'.data⟩ : String)
      | cleaned => ⟨joinComma cleaned⟩) = ⟨joinComma (t :: rest)⟩
    rw [hsplit2, hclean2]

/-- C8 witness: the amended idempotence at the concrete input
`'usd, kes ,usd'` (defaults `'EUR'` then `'USD'`). -/
theorem c8_normalize_idempotent_witness :
    normalize_currency_options
        (.str (normalize_currency_options (.str "usd, kes ,usd") "EUR")) "USD" =
      normalize_currency_options (.str "usd, kes ,usd") "EUR" :=
  c8_normalize_idempotent_on_nonempty "usd, kes ,usd" "EUR" "USD"
    (by decide) (by decide)

/-! ### Generic lemmas about row replacement and queries -/

/-- Re-finding after replacing the found row yields the replacement. -/
theorem find?_replaceFirst {p : α → Bool} {y : α} :
    ∀ {l : List α} {x : α}, l.find? p = some x → p y = true →
      (replaceFirst p y l).find? p = some y := by
  intro l
  induction l with
  | nil => intro x h _; simp at h
  | cons z zs ih =>
    intro x h hy
    by_cases hz : p z
    · simp only [replaceFirst, if_pos hz]
      exact List.find?_cons_of_pos _ hy
    · rw [List.find?_cons_of_neg _ hz] at h
      simp only [replaceFirst, if_neg hz]
      rw [List.find?_cons_of_neg _ hz]
      exact ih h hy

/-- Replacing the found row by one with the same image under `f` leaves the
image of the table unchanged. -/
theorem map_replaceFirst {p : α → Bool} {y : α} (f : α → β) :
    ∀ {l : List α} {x : α}, l.find? p = some x → f y = f x →
      (replaceFirst p y l).map f = l.map f := by
  intro l
  induction l with
  | nil => intro x h _; simp at h
  | cons z zs ih =>
    intro x h hf
    by_cases hz : p z
    · rw [List.find?_cons_of_pos _ hz] at h
      have hzx : z = x := Option.some.inj h
      subst hzx
      simp only [replaceFirst, if_pos hz, List.map_cons, hf]
    · rw [List.find?_cons_of_neg _ hz] at h
      simp only [replaceFirst, if_neg hz, List.map_cons]
      rw [ih h hf]

/-- If the filter has exactly one element, `find?` returns it. -/
theorem find?_of_filter_singleton {p : α → Bool} :
    ∀ {l : List α} {q : α}, l.filter p = [q] → l.find? p = some q := by
  intro l
  induction l with
  | nil => intro q h; simp at h
  | cons z zs ih =>
    intro q h
    by_cases hz : p z
    · rw [List.filter_cons_of_pos hz] at h
      have h1 : z = q := (List.cons.inj h).1
      rw [List.find?_cons_of_pos _ hz, h1]
    · rw [List.filter_cons_of_neg hz] at h
      rw [List.find?_cons_of_neg _ hz]
      exact ih h

/-- Re-finding a user after committing a mutated row with the same id. -/
theorem findUser_setUser {db : DB} {vid : Nat} {v u : User}
    (h : findUser db vid = some v) (hu : u.id = vid) :
    findUser (db.setUser u) vid = some u := by
  have hpred : (fun x : User => x.id == u.id) = (fun x : User => x.id == vid) := by
    rw [hu]
  show ((replaceFirst (fun x : User => x.id == u.id) u db.users).find?
    (fun x => x.id == vid)) = some u
  rw [hpred]
  exact find?_replaceFirst h (by simp [hu])

/-! ### C10 — vendor activation toggle needs no ownership relation -/

/-- C10: for any store and any acting principal that passes the admin check,
`toggle_vendor_status` on any user with role `vendor` succeeds with HTTP 200
and flips that vendor's `is_active` flag.  No hypothesis relates the vendor
to the admin — in particular no application to an event of the acting admin
is required. -/
theorem c10_toggle_vendor_no_ownership
    (db : DB) (cur : Option Nat) (vid now : Nat) (v : User)
    (hAdmin : checkAdmin db cur = true)
    (hV : findUser db vid = some v)
    (hRole : v.role = "vendor") :
    (toggleVendorStatus db cur vid now).1 = 200 ∧
    findUser (toggleVendorStatus db cur vid now).2 vid =
      some { v with is_active := !v.is_active, updated_at := now } := by
  have hvid : v.id = vid := by simpa using List.find?_some hV
  unfold toggleVendorStatus
  rw [hAdmin]
  simp only [Bool.true_eq_false, if_false]
  rw [hV]
  simp only [hRole]
  rw [if_neg (by simp)]
  exact ⟨rfl, findUser_setUser hV hvid⟩

/-- C10 witness: admin 1 toggles vendor 3, who has no application at all. -/
theorem c10_toggle_vendor_no_ownership_witness :
    (toggleVendorStatus dbC10w (some 1) 3 11).1 = 200 ∧
    findUser (toggleVendorStatus dbC10w (some 1) 3 11).2 3 =
      some { fixUser 3 "vendor" true with
             is_active := !(fixUser 3 "vendor" true).is_active
             updated_at := 11 } :=
  c10_toggle_vendor_no_ownership dbC10w (some 1) 3 11 (fixUser 3 "vendor" true)
    (by decide) (by decide) (by decide)

/-! ### C6 — `payment_date` is written once -/

/-- C6: a successful `update_payment_status` call with status `completed`
sets `payment_date` to the current time when it was unset, and leaves an
already-set date untouched: the resulting date is
`some (pay.payment_date.getD now)` in both cases. -/
theorem c6_payment_date_set_once
    (db : DB) (cur : Option Nat) (pid : Nat) (b : PaymentBody) (now : Nat)
    (pay : Payment) (app : VendorApplication) (ev : Event) (aid : Nat)
    (hAdmin : checkAdmin db cur = true)
    (hPay : findPayment db pid = some pay)
    (hAid : getCurrentAdminId db cur = some aid)
    (hApp : findApplication db pay.application_id = some app)
    (hEv : findEvent db app.event_id = some ev)
    (hOwn : ev.created_by_admin_id = aid)
    (hSt : b.status = some "completed") :
    (updatePaymentStatus db cur pid b now).code = 200 ∧
    (updatePaymentStatus db cur pid b now).payment =
      some { pay with
             status := "completed"
             payment_date := some (pay.payment_date.getD now)
             payment_method := b.payment_method.or pay.payment_method
             transaction_id := b.transaction_id.or pay.transaction_id
             notes := b.notes.or pay.notes
             updated_at := now } := by
  cases hd : pay.payment_date with
  | none =>
    simp [updatePaymentStatus, hAdmin, hPay, hAid, hApp, hEv, hOwn, hSt, hd]
  | some d =>
    simp [updatePaymentStatus, hAdmin, hPay, hAid, hApp, hEv, hOwn, hSt, hd]

/-- C6 witness: completing payment 30 (date unset) at time 77 stores
`payment_date = 77`. -/
theorem c6_payment_date_set_once_witness :
    (updatePaymentStatus dbC6w (some 1) 30
        (⟨some "completed", none, none, none⟩ : PaymentBody) 77).code = 200 ∧
    (updatePaymentStatus dbC6w (some 1) 30
        (⟨some "completed", none, none, none⟩ : PaymentBody) 77).payment =
      some { fixPay 30 10 3 500 "pending" none with
             status := "completed"
             payment_date := some ((fixPay 30 10 3 500 "pending" none).payment_date.getD 77)
             payment_method := (⟨some "completed", none, none, none⟩ :
               PaymentBody).payment_method.or (fixPay 30 10 3 500 "pending" none).payment_method
             transaction_id := (⟨some "completed", none, none, none⟩ :
               PaymentBody).transaction_id.or (fixPay 30 10 3 500 "pending" none).transaction_id
             notes := (⟨some "completed", none, none, none⟩ :
               PaymentBody).notes.or (fixPay 30 10 3 500 "pending" none).notes
             updated_at := 77 } :=
  c6_payment_date_set_once dbC6w (some 1) 30 ⟨some "completed", none, none, none⟩ 77
    (fixPay 30 10 3 500 "pending" none) (fixApp 10 3 20 "approved")
    (fixEvent 20 1 500 "upcoming" "USD" "USD") 1
    (by decide) (by decide) (by decide) (by decide) (by decide) (by decide) (by decide)

/-! ### C3 — review does not treat approved/rejected/withdrawn as terminal -/

/-- C3 (counterexample): reviewing the already-approved application 10 with
`rejected` succeeds and changes its status and review metadata —
`review_application` never inspects the current status, so approved is not
terminal and `reviewed_at`/`reviewed_by` are overwritten. -/
theorem c3_terminal_status_counterexample : ¬ C3Statement := by
  intro h
  have := h dbC3 (some 1) 10 ⟨some "rejected", none⟩ 99
    { fixApp 10 3 20 "approved" with reviewed_at := some 5, reviewed_by := some 1 }
    { fixApp 10 3 20 "approved" with
      status := "rejected"
      reviewed_at := some 99
      reviewed_by := some 1
      updated_at := 99 }
    (by decide) (by decide) (by decide)
  exact absurd this.1 (by decide)

/-- C3 (amended): a review call that passes the admin/ownership/status-value
guards *always* succeeds with HTTP 200 and overwrites `status`,
`admin_notes`, `reviewed_at` and `reviewed_by`, whatever the application's
current status (pending, approved, rejected or withdrawn) — the reviewed
surface enforces no terminal states, and `reviewed_at`/`reviewed_by` are
re-set on every review, not only on the transition out of pending. -/
theorem c3_review_overwrites_any_status
    (db : DB) (cur aid : Nat) (st : String) (notes : Option String) (now : Nat)
    (app : VendorApplication) (ev : Event)
    (hAdmin : checkAdmin db (some cur) = true)
    (hApp : findApplication db aid = some app)
    (hEv : findEvent db app.event_id = some ev)
    (hOwn : ev.created_by_admin_id = cur)
    (hSt : st = "approved" ∨ st = "rejected") :
    (reviewApplication db (some cur) aid ⟨some st, notes⟩ now).code = 200 ∧
    (reviewApplication db (some cur) aid ⟨some st, notes⟩ now).application =
      some { app with
             status := st
             admin_notes := notes
             reviewed_at := some now
             reviewed_by := some cur
             updated_at := now } := by
  rcases hSt with h | h <;> subst h <;>
    simp [reviewApplication, hAdmin, hApp, hEv, hOwn]

/-- C3 witness (for the amended claim): admin 1 re-reviews the approved
application 10 as rejected at time 99. -/
theorem c3_review_overwrites_any_status_witness :
    (reviewApplication dbC3 (some 1) 10 ⟨some "rejected", none⟩ 99).code = 200 ∧
    (reviewApplication dbC3 (some 1) 10 ⟨some "rejected", none⟩ 99).application =
      some { { fixApp 10 3 20 "approved" with
               reviewed_at := some 5, reviewed_by := some 1 } with
             status := "rejected"
             admin_notes := none
             reviewed_at := some 99
             reviewed_by := some 1
             updated_at := 99 } :=
  c3_review_overwrites_any_status dbC3 1 10 "rejected" none 99
    { fixApp 10 3 20 "approved" with reviewed_at := some 5, reviewed_by := some 1 }
    (fixEvent 20 1 500 "upcoming" "USD" "USD")
    (by decide) (by decide) (by decide) (by decide) (Or.inr rfl)

/-! ### C9 — login error taxonomy -/

/-- C9 (counterexample): a deactivated account with correct credentials is
rejected with HTTP **403**, not 401 as the claim states. -/
theorem c9_deactivated_login_not_401 : ¬ C9DeactivatedClaim := by
  intro h
  have := h dbC9 "v@x" "pw" none (fun hsh p => hsh == p) (fun s => s)
    { fixUser 5 "vendor" false with email := "v@x", password_hash := "pw" }
    (by decide) (by decide) (by decide) (by decide) (by decide)
  exact absurd this (by decide)

/-- C9 (amended): with non-empty email and password, `login` fails with 401
on unknown email, wrong password, or a non-empty role hint that mismatches
the stored role; a deactivated account (with correct password) fails with
**403 Forbidden**; on success it returns HTTP 200 with a credential minted
from the principal's id. -/
theorem c9_login_status_taxonomy
    (db : DB) (email password : String) (role : Option String)
    (chk : String → String → Bool) (mkTok : String → String)
    (hE : email ≠ "") (hP : password ≠ "") :
    (findUserByEmail db email = none →
      (login db email password role chk mkTok).code = 401) ∧
    (∀ u, findUserByEmail db email = some u → chk u.password_hash password = false →
      (login db email password role chk mkTok).code = 401) ∧
    (∀ u, findUserByEmail db email = some u → chk u.password_hash password = true →
      u.is_active = false → (login db email password role chk mkTok).code = 403) ∧
    (∀ u r, findUserByEmail db email = some u → chk u.password_hash password = true →
      u.is_active = true → role = some r → r ≠ "" → u.role ≠ r →
      (login db email password role chk mkTok).code = 401) ∧
    (∀ u, findUserByEmail db email = some u → chk u.password_hash password = true →
      u.is_active = true → (∀ r, role = some r → r ≠ "" → u.role = r) →
      login db email password role chk mkTok =
        ⟨200, some (mkTok (toString u.id))⟩) := by
  refine ⟨?_, ?_, ?_, ?_, ?_⟩
  · intro hu
    simp [login, hE, hP, hu]
  · intro u hu hc
    simp [login, hE, hP, hu, hc]
  · intro u hu hc ha
    simp [login, hE, hP, hu, hc, ha]
  · intro u r hu hc ha hr hrne hmis
    simp [login, hE, hP, hu, hc, ha, hr, hrne, hmis]
  · intro u hu hc ha hrole
    cases hr : role with
    | none => simp [login, hE, hP, hu, hc, ha, hr]
    | some r =>
      by_cases hre : r = ""
      · subst hre
        simp [login, hE, hP, hu, hc, ha, hr]
      · have := hrole r hr hre
        simp [login, hE, hP, hu, hc, ha, hr, hre, this]

/-- C9 witness (for the amended claim): the deactivated vendor of `dbC9`
logging in with the correct password receives 403. -/
theorem c9_login_status_taxonomy_witness :
    (login dbC9 "v@x" "pw" none (fun hsh p => hsh == p) (fun s => s)).code = 403 :=
  (c9_login_status_taxonomy dbC9 "v@x" "pw" none (fun hsh p => hsh == p) (fun s => s)
      (by decide) (by decide)).2.2.1
    { fixUser 5 "vendor" false with email := "v@x", password_hash := "pw" }
    (by decide) (by decide) (by decide)

/-- Mapping a frame function over the payments table after committing a
mutated payment row with an unchanged frame is the identity. -/
theorem payments_map_setPayment {db : DB} {pid : Nat} {pay q : Payment}
    (f : Payment → β) (h : findPayment db pid = some pay) (hq : q.id = pay.id)
    (hf : f q = f pay) :
    (db.setPayment q).payments.map f = db.payments.map f := by
  have hid : pay.id = pid := by simpa using List.find?_some h
  have hpred : (fun x : Payment => x.id == q.id) = (fun x : Payment => x.id == pid) := by
    rw [hq, hid]
  show (replaceFirst (fun x : Payment => x.id == q.id) q db.payments).map f =
    db.payments.map f
  rw [hpred]
  exact map_replaceFirst f h hf

/-! ### C7 — a payment's amount (and identity fields) are never rewritten -/

/-- C7: `update_payment_status` leaves every payment's frame — `id`,
`application_id`, `vendor_id`, `amount`, `currency`, `pay_to`, `created_at` —
unchanged (it writes only status, payment_date, payment_method,
transaction_id, notes, updated_at), and `update_event` (in particular a
`vendor_fee` change) never touches the payments table at all. -/
theorem c7_payment_amount_frame
    (db : DB) (cur cur2 : Option Nat) (pid : Nat) (b : PaymentBody) (now : Nat)
    (eid : Nat) (p : EventPatch) (parseIso : String → Option Int) (now2 : Nat) :
    (updatePaymentStatus db cur pid b now).db.payments.map paymentFrame =
      db.payments.map paymentFrame ∧
    (updateEvent db cur2 eid p parseIso now2).db.payments = db.payments := by
  constructor
  · unfold updatePaymentStatus
    split
    · rfl
    split
    · rfl
    next pay hPay =>
      split
      · rfl
      next aid hAid =>
        split
        · rfl
        next app hApp =>
          split
          · rfl
          next ev hEv =>
            split
            · rfl
            split
            · rfl
            next st hSt =>
              split
              · rfl
              exact payments_map_setPayment paymentFrame hPay rfl rfl
  · unfold updateEvent
    repeat' split
    all_goals rfl

/-! ### C2 — repeated approval creates exactly one payment -/

/-- Committing a mutated application row does not change any payment query. -/
theorem paymentsFor_setApplication (db : DB) (a : VendorApplication) (aid : Nat) :
    paymentsFor (db.setApplication a) aid = paymentsFor db aid := rfl

/-- Adding a payment row extends a payment query by the filtered singleton. -/
theorem paymentsFor_addPayment (db : DB) (np : Payment) (aid : Nat) :
    paymentsFor (db.addPayment np) aid =
      paymentsFor db aid ++ [np].filter (fun p => p.application_id == aid) := by
  unfold paymentsFor DB.addPayment
  exact List.filter_append _ _

/-- Any review call — approve, reject, or failing — preserves a state in
which exactly one payment references `aid`: the existence check finds the
existing row and skips the insert, and an insert for a different
application does not affect `aid`'s rows. -/
theorem review_preserves_single_payment
    {db : DB} {aid : Nat} {q : Payment} (h : paymentsFor db aid = [q])
    (c : Option Nat) (a : Nat) (b : ReviewBody) (n : Nat) :
    paymentsFor (reviewApplication db c a b n).db aid = [q] := by
  have hq : q ∈ db.payments ∧ (q.application_id == aid) = true := by
    have hmem : q ∈ db.payments.filter (fun p => p.application_id == aid) := by
      rw [show db.payments.filter (fun p => p.application_id == aid) = [q] from h]
      exact List.mem_singleton.mpr rfl
    exact List.mem_filter.mp hmem
  unfold reviewApplication
  split
  · exact h
  split
  · exact h
  next uid =>
    split
    · exact h
    next app hApp =>
      split
      · exact h
      next ev hEv =>
        split
        · exact h
        split
        · exact h
        next st hSt =>
          split
          · exact h
          dsimp only
          split
          · -- st = "approved": case on the existence check
            split
            · exact h
            next hfind =>
              by_cases he : app.id = aid
              · -- impossible: the check would have found q
                exfalso
                have hnone := List.find?_eq_none.mp hfind q hq.1
                have hq2 := hq.2
                rw [← he] at hq2
                exact hnone hq2
              · -- inserted row references app.id ≠ aid: aid's rows unchanged
                rw [paymentsFor_addPayment, paymentsFor_setApplication, h]
                simp [newPayment, he]
          · exact h

/-- Iterating approval calls preserves the single-payment state. -/
theorem approveIter_preserves_single_payment
    {aid : Nat} {q : Payment} (cur : Nat) (notes : Option String) (now : Nat) :
    ∀ (m : Nat) (db : DB), paymentsFor db aid = [q] →
      paymentsFor (approveIter cur aid notes now m db) aid = [q] := by
  intro m
  induction m with
  | zero => intro db h; exact h
  | succ k ih =>
    intro db h
    exact ih _ (review_preserves_single_payment h _ _ _ _)

/-- C2: starting from a state with no payment for the application, any
number `n + 1 ≥ 1` of (successful, possibly retried) approval calls leaves
exactly one payment row referencing the application — the one created by
the first call, with `amount` equal to the event's `vendor_fee` at approval
time and status `pending`. -/
theorem c2_repeated_approval_single_payment
    (db : DB) (cur aid : Nat) (notes : Option String) (now : Nat)
    (app : VendorApplication) (ev : Event)
    (hAdmin : checkAdmin db (some cur) = true)
    (hApp : findApplication db aid = some app)
    (hEv : findEvent db app.event_id = some ev)
    (hOwn : ev.created_by_admin_id = cur)
    (hNone : paymentsFor db aid = []) :
    ∃ q : Payment, q.amount = ev.vendor_fee ∧ q.status = "pending" ∧
      q.application_id = aid ∧
      ∀ n : Nat, paymentsFor (approveIter cur aid notes now (n + 1) db) aid = [q] := by
  have hid : app.id = aid := by simpa using List.find?_some hApp
  have hfind : db.payments.find? (fun p => p.application_id == app.id) = none := by
    apply List.find?_eq_none.mpr
    intro x hx hpx
    have hmem : x ∈ db.payments.filter (fun p => p.application_id == aid) :=
      List.mem_filter.mpr ⟨hx, by rw [← hid]; exact hpx⟩
    rw [show db.payments.filter (fun p => p.application_id == aid) = [] from hNone] at hmem
    simp at hmem
  have hstep :
      paymentsFor (reviewApplication db (some cur) aid ⟨some "approved", notes⟩ now).db aid
        = [newPayment
            (db.setApplication { app with
              status := "approved"
              admin_notes := notes
              reviewed_at := some now
              reviewed_by := some cur
              updated_at := now }) app ev now] := by
    simp only [reviewApplication, hAdmin, Bool.true_eq_false, if_false, hApp, hEv, hOwn]
    rw [if_neg (by simp)]
    rw [if_neg (by simp)]
    dsimp only
    simp only [if_true]
    rw [show (db.setApplication { app with
          status := "approved"
          admin_notes := notes
          reviewed_at := some now
          reviewed_by := some cur
          updated_at := now }).payments.find? (fun p => p.application_id == app.id) = none
        from hfind]
    rw [paymentsFor_addPayment, paymentsFor_setApplication, hNone]
    simp [newPayment, hid]
  refine ⟨newPayment
      (db.setApplication { app with
        status := "approved"
        admin_notes := notes
        reviewed_at := some now
        reviewed_by := some cur
        updated_at := now }) app ev now, rfl, rfl, hid, ?_⟩
  intro n
  show paymentsFor (approveIter cur aid notes now n
    (reviewApplication db (some cur) aid ⟨some "approved", notes⟩ now).db) aid = _
  exact approveIter_preserves_single_payment cur notes now n _ hstep

/-- C2 witness: three retried approvals of the pending application 10 leave
exactly one pending payment of amount 500. -/
theorem c2_repeated_approval_single_payment_witness :
    ∃ q : Payment, q.amount = (fixEvent 20 1 500 "upcoming" "USD" "USD").vendor_fee ∧
      q.status = "pending" ∧ q.application_id = 10 ∧
      ∀ n : Nat, paymentsFor (approveIter 1 10 none 50 (n + 1) dbC2w) 10 = [q] :=
  c2_repeated_approval_single_payment dbC2w 1 10 none 50 (fixApp 10 3 20 "pending")
    (fixEvent 20 1 500 "upcoming" "USD" "USD")
    (by decide) (by decide) (by decide) (by decide) (by decide)

/-! ### C5 — `default_currency ∈ currency_options` after create and update -/

/-- The merged row of a successful patch application: its currency fields. -/
theorem applyEventPatch_ok_fields {e e1 : Event} {p : EventPatch}
    {parseIso : String → Option Int}
    (h : applyEventPatch e p parseIso = .ok e1) :
    e1.default_currency = p.default_currency.elim e.default_currency sUpper ∧
    e1.currency_options = p.currency_options.elim e.currency_options
      (fun raw => normalize_currency_options raw
        (p.default_currency.getD e.default_currency)) := by
  unfold applyEventPatch at h
  split at h
  · split at h
    · simp at h
    · have he : e1 = patchFields { e with event_date := _ } p := (Except.ok.inj h).symm
      subst he
      exact ⟨rfl, rfl⟩
  · have he : e1 = patchFields e p := (Except.ok.inj h).symm
    subst he
    exact ⟨rfl, rfl⟩

/-- C5: (i) every event returned by a successful `create_event` satisfies
`default_currency ∈ parsed currency_options`; (ii) `create_event` either
succeeds (201) or leaves the store unchanged; (iii) every event returned by
a successful `update_event` satisfies the invariant, provided the stored
`default_currency` was already upper-case (which (i) guarantees for every
created event, and the update itself re-establishes); (iv) `update_event`
either succeeds (200) or leaves the store unchanged — in particular a
request that would break the membership is rejected (400 by the currency
check) with the event unchanged. -/
theorem c5_currency_invariant
    (db : DB) (cur cur2 : Option Nat) (b : CreateEventBody) (eid : Nat) (p : EventPatch)
    (parseIso parseIso2 : String → Option Int) (now now2 : Nat) :
    ((createEvent db cur b parseIso now).event.all eventCurrencyOk = true) ∧
    ((createEvent db cur b parseIso now).code = 201 ∨
      (createEvent db cur b parseIso now).db = db) ∧
    (((findEvent db eid).all
        (fun e => upperChars e.default_currency.data == e.default_currency.data) = true) →
      (updateEvent db cur2 eid p parseIso2 now2).event.all eventCurrencyOk = true) ∧
    ((updateEvent db cur2 eid p parseIso2 now2).code = 200 ∨
      (updateEvent db cur2 eid p parseIso2 now2).db = db) := by
  refine ⟨?_, ?_, ?_, ?_⟩
  · unfold createEvent
    split
    · rfl
    split
    · rfl
    split
    · rfl
    split
    · rfl
    split
    · rfl
    dsimp only
    split
    · rfl
    next hcond =>
      exact of_not_not hcond
  · unfold createEvent
    repeat' split
    all_goals try simp
    all_goals try (split <;> simp)
  · intro hUp
    unfold updateEvent
    split
    · rfl
    split
    · rfl
    next e hE =>
      split
      · rfl
      next admin_id hAid =>
        split
        · rfl
        split
        · rfl
        next e1 hPatch =>
          split
          · rfl
          split
          · rfl
          next hcond =>
            have hfix : upperChars e1.default_currency.data = e1.default_currency.data := by
              have hdc := (applyEventPatch_ok_fields hPatch).1
              cases hdp : p.default_currency with
              | some v =>
                rw [hdp] at hdc
                rw [hdc]
                exact upperChars_idem v.data
              | none =>
                rw [hdp] at hdc
                rw [hdc]
                rw [hE] at hUp
                simpa using hUp
            show (allowedCurrencies e1.currency_options).contains
              e1.default_currency.data = true
            have h2 := of_not_not hcond
            rw [← hfix]
            exact h2
  · unfold updateEvent
    repeat' split
    all_goals simp

/-- C5 witness: patching only `default_currency := "usd"` on the stored
`USD`-event succeeds and the updated event satisfies the invariant. -/
theorem c5_currency_invariant_witness :
    (updateEvent dbC5w (some 1) 20
        { emptyEventPatch with default_currency := some "usd" }
        (fun _ => none) 9).event.all eventCurrencyOk = true :=
  (c5_currency_invariant dbC5w (some 1) (some 1) bodyC5w 20
      { emptyEventPatch with default_currency := some "usd" }
      (fun _ => none) (fun _ => none) 7 9).2.2.1 (by decide)
